import Mathlib

/-!
Verification of the Knights-Tour-Mobile-Robot regression-test tooling.

The definitions below are shallow embeddings of the Python sources:

* `scripts/run_tests.py` — the test orchestrator: the oracle solver
  `compute_knights_tour` (lines 228-300), transcript extraction
  `extract_data_from_log` (lines 180-226), oracle verification
  `validate_solution` (lines 302-318), the transcript classifier
  `check_transcript` (lines 352-378), the compilation-log classifier
  `check_compilation` (lines 331-350), the build step `compile_files`
  (lines 386-428), the result-collection loop of `run_parallel_tests`
  (lines 662-684), and the catalog `TEST_MAPPING` (lines 25-32);
* `TourLogic.py` — the standalone solver: `get_valid_moves` (lines 32-46),
  `compute_solution` (lines 49-83), `convert_to_hex_path` (lines 86-99),
  together with the module-level `visited_squares` / `solution_path` state;
* `run_tests.py` (the older era) — its `check_transcript` (lines 99-107);
* `collect_files.py` — its `test_mapping` (lines 6-10).

Python mutable state is threaded explicitly (`KTState`, `CompileEnv`),
fallible code returns `Except`, and machine text is `List Char`.
-/

/-- A board cell `(x, y)`; Python coordinates are unbounded ints. -/
abbrev Cell := Int × Int

/-- `rows = 5` (`TourLogic.py` line 27; the `rows=5` default of
`compute_knights_tour`). -/
def rows : Int := 5

/-- `cols = 5` (`TourLogic.py` line 27; the `cols=5` default of
`compute_knights_tour`). -/
def cols : Int := 5

/-- The bounds filter `0 <= x < rows and 0 <= y < cols` shared by both
`get_valid_moves` implementations. -/
def inBounds (c : Cell) : Bool :=
  decide (0 ≤ c.1) && decide (c.1 < rows) && decide (0 ≤ c.2) && decide (c.2 < cols)

/-- `orig_moves` (`TourLogic.py` lines 16-25): the eight knight-move
offsets in their fixed priority order.  The inline candidate list of
`compute_knights_tour.get_valid_moves` (`scripts/run_tests.py` lines
259-264) lists the same offsets in the same order. -/
def orig_moves : List Cell :=
  [(1, 2), (-1, 2), (-2, 1), (-2, -1), (-1, -2), (1, -2), (2, -1), (2, 1)]

/-- The transient search state: the `visited_squares` grid (modelled by its
characteristic function — Python stores 0/1 entries in a 5x5 nested list)
and the `solution_path` stack. -/
structure KTState where
  visited : Cell → Bool
  path : List Cell

/-- The freshly initialised state: `[[0 for _ in range(cols)] for _ in
range(rows)]` and `[]`. -/
def initState : KTState := { visited := fun _ => false, path := [] }

/-- `visited_squares[x][y] = 1; solution_path.append(square)` — the entry
actions of both DFS bodies. -/
def markVisit (sq : Cell) (st : KTState) : KTState :=
  { visited := fun c => if c = sq then true else st.visited c,
    path := st.path ++ [sq] }

/-- `visited_squares[x][y] = 0; solution_path.pop()` — the backtracking
actions of both DFS bodies. -/
def unmarkPop (sq : Cell) (st : KTState) : KTState :=
  { visited := fun c => if c = sq then false else st.visited c,
    path := st.path.dropLast }

/-- `get_valid_moves` nested in `compute_knights_tour`
(`scripts/run_tests.py` lines 248-269): the eight offset candidates are
written out inline and then filtered to the in-bounds, unvisited ones. -/
def get_valid_moves (visited : Cell → Bool) (sq : Cell) : List Cell :=
  let x := sq.1
  let y := sq.2
  let moves : List Cell :=
    [(x + 1, y + 2), (x - 1, y + 2),
     (x - 2, y + 1), (x - 2, y - 1),
     (x - 1, y - 2), (x + 1, y - 2),
     (x + 2, y - 1), (x + 2, y + 1)]
  moves.filter (fun c => inBounds c && !visited c)

/-- `get_valid_moves` of `TourLogic.py` (lines 32-46): the same candidates
obtained by offsetting the square with each element of `orig_moves`, then
the same filter. -/
def tour_get_valid_moves (visited : Cell → Bool) (square : Cell) : List Cell :=
  let new_moves := orig_moves.map (fun d => (square.1 + d.1, square.2 + d.2))
  new_moves.filter (fun c => inBounds c && !visited c)

/-- The `for move in pos_moves:` loop shared by both DFS bodies: try each
candidate in order with the recursive search `rec`, returning on the first
success.  Python's recursive calls mutate the shared module/closure state;
this is modelled by threading the state through the iterations. -/
def tryMoves (rec : Cell → KTState → Bool × KTState) :
    List Cell → KTState → Bool × KTState
  | [], st => (false, st)
  | m :: ms, st =>
    match rec m st with
    | (true, st1) => (true, st1)
    | (false, st1) => tryMoves rec ms st1

/-- `dfs` nested in `compute_knights_tour` (`scripts/run_tests.py` lines
271-295): mark/push the current square, succeed when `move_count == rows *
cols`, otherwise recurse over the valid moves in order, and unmark/pop
when no move leads to a solution.  `fuel` bounds the recursion depth for
the termination checker only: each nested call raises `move_count` by one
and the recursion stops at `move_count = rows * cols`, so the top-level
call's `fuel = rows * cols` is never exhausted. -/
def dfs : Nat → Cell → Nat → KTState → Bool × KTState
  | 0, _, _, st => (false, st)
  | fuel + 1, square, move_count, st =>
    let st1 := markVisit square st
    if move_count = rows.toNat * cols.toNat then (true, st1)
    else
      match tryMoves (fun m st2 => dfs fuel m (move_count + 1) st2)
          (get_valid_moves st1.visited square) st1 with
      | (true, st2) => (true, st2)
      | (false, st2) => (false, unmarkPop square st2)

/-- The outcome of one oracle-solver call: `found p` models a normal return
of `solution_path`, `infeasible` models the explicit `ValueError("No valid
Knight's Tour solution exists ...")`, and `crash` models the uncaught
`IndexError` Python raises when the start square itself indexes outside
the 5-element `visited_squares` lists.  (Python would instead wrap a
negative index in `-5..-1`; a negative start is unreachable from the
verification path because extracted coordinates are built from digits
only, so the whole out-of-bounds region is modelled as `crash`.) -/
inductive SolveOutcome where
  | found (p : List Cell)
  | infeasible
  | crash
deriving DecidableEq

/-- `compute_knights_tour` (`scripts/run_tests.py` lines 228-300): fresh
`visited_squares` and `solution_path` are allocated per call (lines
245-246) and the DFS runs from the start square with `move_count = 1`. -/
def compute_knights_tour (start : Cell) : SolveOutcome :=
  if inBounds start then
    match dfs (rows.toNat * cols.toNat) start 1 initState with
    | (true, st) => .found st.path
    | (false, _) => .infeasible
  else .crash

/-- `compute_solution` of `TourLogic.py` (lines 49-83) as a recursion body:
identical to the scripts-era `dfs` except that it tests `if not pos_moves:`
and backtracks explicitly before the loop (lines 68-72); when the list is
non-empty the loop runs and the function backtracks after it (lines
80-83). -/
def tour_dfs : Nat → Cell → Nat → KTState → Bool × KTState
  | 0, _, _, st => (false, st)
  | fuel + 1, square, move_count, st =>
    let st1 := markVisit square st
    if move_count = rows.toNat * cols.toNat then (true, st1)
    else
      let pos_moves := tour_get_valid_moves st1.visited square
      if pos_moves = [] then (false, unmarkPop square st1)
      else
        match tryMoves (fun m st2 => tour_dfs fuel m (move_count + 1) st2)
            pos_moves st1 with
        | (true, st2) => (true, st2)
        | (false, st2) => (false, unmarkPop square st2)

/-- `compute_solution(square)` (`TourLogic.py`) acting on the module-level
`visited_squares`/`solution_path` state, with the default
`move_count = 1`.  (Python's negative-index wrapping and the `IndexError`
for large starts are not modelled here; every theorem about this function
restricts the start to the board.) -/
def tour_compute_solution (square : Cell) (st : KTState) : Bool × KTState :=
  tour_dfs (rows.toNat * cols.toNat) square 1 st

/-- The `moves` dictionary of `TourLogic.py` (lines 4-13): move offsets and
their one-hot encodings, as an association list in source order. -/
def moves_assoc : List (Cell × Nat) :=
  [((1, 2), 0x01), ((-1, 2), 0x02), ((-2, 1), 0x04), ((-2, -1), 0x08),
   ((-1, -2), 0x10), ((1, -2), 0x20), ((2, -1), 0x40), ((2, 1), 0x80)]

/-- Dictionary lookup `moves[move]` guarded by `move in moves`. -/
def assocFind (k : Cell) : List (Cell × Nat) → Option Nat
  | [] => none
  | (k2, v) :: rest => if k = k2 then some v else assocFind k rest

/-- `convert_to_hex_path` (`TourLogic.py` lines 86-99): walk consecutive
pairs of the path, append `moves[move]` when the coordinate difference is
a knight offset, and fall back to printing a warning (appending nothing)
otherwise. -/
def convert_to_hex_path : List Cell → List Nat
  | a :: b :: rest =>
    (match assocFind (b.1 - a.1, b.2 - a.2) moves_assoc with
     | some h => h :: convert_to_hex_path (b :: rest)
     | none => convert_to_hex_path (b :: rest))
  | _ => []

/-- The module state of `scripts/run_tests.py` visible to the solver: the
only module-level mutable container is `_wave_command_cache` (line 35).
`compute_knights_tour` allocates its search state locally (lines 245-246)
and neither reads nor writes any module-level mutable state. -/
structure ScriptsModuleState where
  wave_command_cache : List (Nat × List Char)
deriving DecidableEq

/-- One invocation of `compute_knights_tour` threaded through the module
state: the function's body references only its parameters and locals, so
the module state passes through unchanged. -/
def compute_knights_tour_call (m : ScriptsModuleState) (start : Cell) :
    SolveOutcome × ScriptsModuleState :=
  (compute_knights_tour start, m)

/-- Python's `\s` class restricted to ASCII: space, tab, newline, carriage
return, vertical tab, form feed.  (The log files under scrutiny are ASCII
tool transcripts.) -/
def isSpaceChar (c : Char) : Bool :=
  c = ' ' || c = '\t' || c = '\n' || c = '\r' || c = '\x0b' || c = '\x0c'

/-- Python's `\d` class restricted to ASCII digits. -/
def isDigitChar (c : Char) : Bool :=
  '0' ≤ c && c ≤ '9'

/-- `int(...)` applied to a captured digit group. -/
def digitsToNat (ds : List Char) : Nat :=
  ds.foldl (fun acc c => 10 * acc + (c.toNat - '0'.toNat)) 0

/-- Attempt to match the regex `\((\d+),\s*(\d+)\)` anchored at the head of
the text.  The regex has no backtracking freedom here: after a maximal
`\d+` run the next literal is `,` (respectively `)`), which is not a
digit, and after a maximal `\s*` run the next class is `\d`, which is not
whitespace, so maximal munch coincides with the regex semantics. -/
def matchCoordAt (cs : List Char) : Option (Nat × Nat) :=
  match cs with
  | '(' :: rest =>
    let ds1 := rest.takeWhile isDigitChar
    let r1 := rest.dropWhile isDigitChar
    if ds1 = [] then none
    else
      match r1 with
      | ',' :: r2 =>
        let r3 := r2.dropWhile isSpaceChar
        let ds2 := r3.takeWhile isDigitChar
        let r4 := r3.dropWhile isDigitChar
        if ds2 = [] then none
        else
          match r4 with
          | ')' :: _ => some (digitsToNat ds1, digitsToNat ds2)
          | _ => none
      | _ => none
  | _ => none

/-- `re.search(r'\((\d+),\s*(\d+)\)', line)`: the leftmost match, found by
trying every start position from the left. -/
def searchCoord : List Char → Option (Nat × Nat)
  | [] => none
  | c :: rest =>
    match matchCoordAt (c :: rest) with
    | some p => some p
    | none => searchCoord rest

/-- Python's substring test `needle in haystack`. -/
def containsSub (needle : List Char) : List Char → Bool
  | [] => needle.isEmpty
  | c :: t => if needle.isPrefixOf (c :: t) then true else containsSub needle t

/-- The marker introducing the starting position
(`scripts/run_tests.py` line 209). -/
def startMarker : List Char := "KnightsTour starting at coordinate:".data

/-- The marker introducing each visited coordinate (line 215). -/
def coordMarker : List Char := "Coordinate on the board:".data

/-- The simulation failure marker (line 367). -/
def failMarker : List Char := "ERROR".data

/-- The simulation pass marker (line 370). -/
def passMarker : List Char := "YAHOO!! All tests passed.".data

/-- One iteration of the `for line in lines:` loop of
`extract_data_from_log` (lines 207-218): a line carrying the start marker
overwrites the start position when the coordinate pattern matches; failing
that (`elif`), a line carrying the board marker appends a coordinate when
the pattern matches; all other lines leave the accumulator unchanged. -/
def extractStep (acc : Option (Nat × Nat) × List (Nat × Nat)) (line : List Char) :
    Option (Nat × Nat) × List (Nat × Nat) :=
  if containsSub startMarker line then
    match searchCoord line with
    | some p => (some p, acc.2)
    | none => acc
  else if containsSub coordMarker line then
    match searchCoord line with
    | some p => (acc.1, acc.2 ++ [p])
    | none => acc
  else acc

/-- Coordinates parsed from digit groups, as board cells. -/
def natCell (p : Nat × Nat) : Cell := ((p.1 : Int), (p.2 : Int))

/-- `extract_data_from_log` (`scripts/run_tests.py` lines 180-226) over the
transcript's lines: fold the line loop, then raise `ValueError` (modelled
as `Except.error ()`) when no starting position was seen or when the
coordinate list is empty. -/
def extract_data_from_log (lines : List (List Char)) :
    Except Unit (Cell × List Cell) :=
  match lines.foldl extractStep (none, []) with
  | (none, _) => .error ()
  | (some s, coords) =>
    if coords = [] then .error ()
    else .ok (natCell s, coords.map natCell)

/-- `validate_solution` (`scripts/run_tests.py` lines 302-318): extract,
solve, trim the start cell from the computed solution, and compare; the
`except ValueError` handler turns both extraction failures and oracle
infeasibility into `"unknown"`.  An `IndexError` from an out-of-board
start is not a `ValueError` and escapes the handler (`Except.error ()`). -/
def validate_solution (lines : List (List Char)) : Except Unit String :=
  match extract_data_from_log lines with
  | .error _ => .ok "unknown"
  | .ok (start, log_coordinates) =>
    match compute_knights_tour start with
    | .crash => .error ()
    | .infeasible => .ok "unknown"
    | .found p =>
      if log_coordinates = p.drop 1 then .ok "success" else .ok "error"

/-- `file.read()` of a transcript whose `readlines()` view is `lines`. -/
def contentOf (lines : List (List Char)) : List Char :=
  List.intercalate ['\n'] lines

/-- `check_transcript` nested in `check_logs` (`scripts/run_tests.py` lines
352-378): the failure marker is checked first; a test numbered `<= 15` is
then classified by the pass marker alone; a higher-numbered test defers to
`validate_solution`. -/
def check_transcript (test_num : Nat) (lines : List (List Char)) :
    Except Unit String :=
  if containsSub failMarker (contentOf lines) then .ok "error"
  else if test_num ≤ 15 then
    (if containsSub passMarker (contentOf lines) then .ok "success"
     else .ok "unknown")
  else validate_solution lines

/-- `check_transcript` of the older era (`run_tests.py` lines 99-107): the
pass marker is checked before the failure marker and there is no oracle
deferral. -/
def check_transcript_old (lines : List (List Char)) : String :=
  if containsSub passMarker (contentOf lines) then "success"
  else if containsSub failMarker (contentOf lines) then "error"
  else "unknown"

/-- The compilation error marker (`scripts/run_tests.py` line 345). -/
def errorColonMarker : List Char := "Error:".data

/-- The compilation warning marker (line 347). -/
def warningColonMarker : List Char := "Warning:".data

/-- `check_compilation` nested in `check_logs` (lines 331-350). -/
def check_compilation (content : List Char) : String :=
  if containsSub errorColonMarker content then "error"
  else if containsSub warningColonMarker content then "warning"
  else "success"

/-- One value of the `TEST_MAPPING` dictionary: either a plain
`range(lo, hi)` or a nested variant-to-range dictionary. -/
inductive CatEntry where
  | plain (lo hi : Nat)
  | subdivided (subs : List (String × Nat × Nat))
deriving DecidableEq

/-- `TEST_MAPPING` (`scripts/run_tests.py` lines 25-32): `simple` is
`range(0, 2)`, `move` is `range(2, 15)`, and `logic` holds `main` and
`extra`, both `range(15, 29)`. -/
def TEST_MAPPING : List (String × CatEntry) :=
  [("simple", .plain 0 2),
   ("move", .plain 2 15),
   ("logic", .subdivided [("main", 15, 29), ("extra", 15, 29)])]

/-- `test_mapping` (`collect_files.py` lines 6-10): `simple` is
`range(1, 2)`, `move` is `range(2, 15)`, `logic` is `range(15, 18)`. -/
def test_mapping : List (String × Nat × Nat) :=
  [("simple", 1, 2), ("move", 2, 15), ("logic", 15, 18)]

/-- `id in range(lo, hi)`. -/
def inRange (id lo hi : Nat) : Bool :=
  lo ≤ id && id < hi

/-- All `(Category, optional Variant)` pairs of `TEST_MAPPING` whose range
contains `id`. -/
def claiming_pairs (id : Nat) : List (String × Option String) :=
  TEST_MAPPING.foldr (fun entry acc =>
    match entry with
    | (name, .plain lo hi) =>
      if inRange id lo hi then (name, none) :: acc else acc
    | (name, .subdivided subs) =>
      (subs.filterMap (fun sub =>
        if inRange id sub.2.1 sub.2.2 then some (name, some sub.1) else none))
        ++ acc) []

/-- The catalog as seen by one run with a fixed variant, mirroring
`get_all_test_numbers` / `get_tests_in_range` (`scripts/run_tests.py`
lines 590-632): plain categories contribute their range, a subdivided
category contributes the range of the selected variant when that key is
present. -/
def variant_ranges (variant : String) : List (String × Nat × Nat) :=
  TEST_MAPPING.foldr (fun entry acc =>
    match entry with
    | (name, .plain lo hi) => (name, lo, hi) :: acc
    | (name, .subdivided subs) =>
      match subs.lookup variant with
      | some r => (name, r.1, r.2) :: acc
      | none => acc) []

/-- The number of categories of a variant view that claim `id`. -/
def claim_count (ranges : List (String × Nat × Nat)) (id : Nat) : Nat :=
  (ranges.filter (fun r => inRange id r.2.1 r.2.2)).length

/-- The filesystem and invocation trace relevant to `compile_files`: whether
the per-test work library `./TEST_<n>` exists, how many times the external
tool has been run (`subprocess.run`, line 415), and how many of those runs
created the library with `vlib` (line 412). -/
structure CompileEnv where
  libExists : Bool
  invocations : Nat
  vlibRuns : Nat
deriving DecidableEq

/-- `compile_files` (`scripts/run_tests.py` lines 386-428): every call runs
the external tool exactly once — with a `vlib` library-creation directive
when `./TEST_<n>` does not yet exist (line 412), as a plain `vlog`
otherwise (line 414).  The function takes no skip/staleness policy.  A
`CalledProcessError` (non-zero tool exit) or an `"Error:"` marker in the
compilation log triggers `sys.exit(1)`, modelled as `Except.error 1`;
warnings only print.  The log content is the external tool's output, a
parameter here. -/
def compile_files (env : CompileEnv) (toolExitNonzero : Bool)
    (logContent : List Char) : Except Nat Unit × CompileEnv :=
  let env1 : CompileEnv :=
    { libExists := true,
      invocations := env.invocations + 1,
      vlibRuns := if env.libExists then env.vlibRuns else env.vlibRuns + 1 }
  if toolExitNonzero then (Except.error 1, env1)
  else if check_compilation logContent = "error" then (Except.error 1, env1)
  else (Except.ok (), env1)

/-- What a worker job can leave in its future: a normal return, an ordinary
`Exception`, or a `SystemExit` — the class `sys.exit(1)` raises inside
`compile_files`, which is not a subclass of `Exception`. -/
inductive Fault where
  | exc
  | sysExit (code : Nat)
deriving DecidableEq

/-- The outcome stored in one job's future.  `ThreadPoolExecutor` runs the
job and captures any raised `BaseException` into the future. -/
abbrev JobOutcome := Except Fault Unit

/-- The result-collection loop of `run_parallel_tests`
(`scripts/run_tests.py` lines 680-684): `future.result()` re-raises the
job's fault; `except Exception` catches and prints an ordinary exception
and the loop continues, but a `SystemExit` is not an `Exception`, escapes
the handler, and aborts the loop (and with it the run) with its exit code
— returned here as `some code`.  All submitted jobs still execute: the
executor's context exit waits for every submitted future without
cancelling any. -/
def collect_results : List JobOutcome → Option Nat
  | [] => none
  | .ok _ :: rest => collect_results rest
  | .error .exc :: rest => collect_results rest
  | .error (.sysExit c) :: _ => some c

/-- Decidable equality for `Except`, used to evaluate the embedded
functions at concrete transcripts. -/
instance {α β : Type} [DecidableEq α] [DecidableEq β] : DecidableEq (Except α β) :=
  fun a b =>
    match a, b with
    | .ok x, .ok y => decidable_of_iff (x = y) (by simp)
    | .error x, .error y => decidable_of_iff (x = y) (by simp)
    | .ok _, .error _ => isFalse (by simp)
    | .error _, .ok _ => isFalse (by simp)

/-- Two cells are one knight move apart in the source's sense: their
coordinate difference is one of the eight fixed offsets. -/
def knightStep (a b : Cell) : Prop :=
  (b.1 - a.1, b.2 - a.2) ∈ orig_moves

/-- The property claimed of `validate_solution` relative to one solver
outcome: whenever the solver finds a tour, verification succeeds exactly
on the transcript whose coordinates equal the tour with its start cell
dropped, and reports an error exactly otherwise.  (`irreducible` so that
instantiating a theorem at a concrete start does not make elaboration run
the whole search.) -/
@[irreducible] def OracleAgrees (lines : List (List Char)) (coords : List Cell)
    (outcome : SolveOutcome) : Prop :=
  match outcome with
  | SolveOutcome.found p =>
      (validate_solution lines = Except.ok "success" ↔ coords = p.drop 1) ∧
      (validate_solution lines = Except.ok "error" ↔ coords ≠ p.drop 1)
  | _ => True

/-- The property claimed of a `compute_solution` result: on success, the
recorded path is a chain of knight moves, so `convert_to_hex_path` never
takes its invalid-move fallback and emits one hex value per move — 24 for
a full 25-cell tour.  (`irreducible` for the same reason as
`OracleAgrees`.) -/
@[irreducible] def HexPathTotal (res : Bool × KTState) : Prop :=
  match res with
  | (true, st) =>
      st.path.Chain' knightStep ∧
      (convert_to_hex_path st.path).length = st.path.length - 1 ∧
      (convert_to_hex_path st.path).length = 24
  | (false, _) => True

/-! General lemmas about the embedded solver. -/

/-- Every square produced by `get_valid_moves` is on the board, unvisited,
and one knight offset away from the current square. -/
theorem mem_get_valid_moves {v : Cell → Bool} {sq m : Cell}
    (h : m ∈ get_valid_moves v sq) :
    inBounds m = true ∧ v m = false ∧ knightStep sq m := by
  simp only [get_valid_moves, List.mem_filter, Bool.and_eq_true, Bool.not_eq_true'] at h
  obtain ⟨hmem, hb, hv⟩ := h
  refine ⟨hb, hv, ?_⟩
  simp only [List.mem_cons, List.not_mem_nil, or_false] at hmem
  simp only [knightStep, orig_moves, List.mem_cons, List.not_mem_nil, or_false,
    Prod.mk.injEq]
  rcases hmem with h | h | h | h | h | h | h | h <;> subst h <;> simp

/-- The two `get_valid_moves` implementations agree: mapping the offsets
over the square yields exactly the inline candidate list. -/
theorem tour_gvm_eq (v : Cell → Bool) (sq : Cell) :
    tour_get_valid_moves v sq = get_valid_moves v sq := rfl

/-- Backtracking undoes marking exactly, provided the square was unvisited
on entry — the discipline both DFS bodies follow. -/
theorem unmarkPop_markVisit (sq : Cell) (st : KTState) (h : st.visited sq = false) :
    unmarkPop sq (markVisit sq st) = st := by
  unfold unmarkPop markVisit
  cases st with
  | mk v p =>
    simp only [KTState.mk.injEq]
    constructor
    · funext c
      by_cases hc : c = sq
      · subst hc; simp; exact h
      · simp [hc]
    · simp [List.dropLast_concat]

/-- `rows * cols` evaluates to 25. -/
theorem total_squares_eq : rows.toNat * cols.toNat = 25 := rfl

/-- The move loop preserves any state property established by the recursive
calls: if every recursive call either succeeds with a state satisfying `P`
or fails restoring the state exactly, so does the loop. -/
theorem tryMoves_spec {rec : Cell → KTState → Bool × KTState} {P : KTState → Prop}
    (ms : List Cell) (st : KTState)
    (h1 : ∀ m ∈ ms, (rec m st).1 = true → P (rec m st).2)
    (h2 : ∀ m ∈ ms, (rec m st).1 = false → (rec m st).2 = st) :
    ((tryMoves rec ms st).1 = true → P (tryMoves rec ms st).2) ∧
    ((tryMoves rec ms st).1 = false → (tryMoves rec ms st).2 = st) := by
  induction ms with
  | nil => exact ⟨fun h => by simp [tryMoves] at h, fun _ => rfl⟩
  | cons m ms ih =>
    rcases hr : rec m st with ⟨b, st1⟩
    cases b
    · have hst1 : st1 = st := by
        have h := h2 m (List.mem_cons_self m ms)
        rw [hr] at h
        exact h rfl
      subst hst1
      have ihh := ih (fun x hx => h1 x (List.mem_cons_of_mem _ hx))
        (fun x hx => h2 x (List.mem_cons_of_mem _ hx))
      simpa only [tryMoves, hr] using ihh
    · refine ⟨fun _ => ?_, fun hf => ?_⟩
      · have h := h1 m (List.mem_cons_self m ms)
        rw [hr] at h
        simpa only [tryMoves, hr] using h rfl
      · simp [tryMoves, hr] at hf

/-- The backtracking invariant of `dfs`: called on a coherent state (the
path has `move_count - 1` distinct on-board cells, all marked visited,
chained by knight moves, whose last cell reaches the unvisited on-board
current square), a successful search extends the path with the current
square to a 25-cell duplicate-free on-board knight chain, and a failed
search restores the state exactly. -/
theorem dfs_spec : ∀ (fuel : Nat) (sq : Cell) (mc : Nat) (st : KTState),
    mc = st.path.length + 1 →
    st.path.Nodup →
    (∀ c ∈ st.path, st.visited c = true) →
    (∀ c ∈ st.path, inBounds c = true) →
    st.path.Chain' knightStep →
    (∀ a, st.path.getLast? = some a → knightStep a sq) →
    st.visited sq = false →
    inBounds sq = true →
    ((dfs fuel sq mc st).1 = true →
       (∃ rest, (dfs fuel sq mc st).2.path = st.path ++ sq :: rest) ∧
       (dfs fuel sq mc st).2.path.length = 25 ∧
       (dfs fuel sq mc st).2.path.Nodup ∧
       (∀ c ∈ (dfs fuel sq mc st).2.path, inBounds c = true) ∧
       (dfs fuel sq mc st).2.path.Chain' knightStep) ∧
    ((dfs fuel sq mc st).1 = false → (dfs fuel sq mc st).2 = st) := by
  intro fuel
  induction fuel with
  | zero =>
    intro sq mc st _ _ _ _ _ _ _ _
    exact ⟨fun h => by simp [dfs] at h, fun _ => rfl⟩
  | succ fuel ih =>
    intro sq mc st hmc hnd hvis hbpath hchain hlast hsq hb
    have hsq_not_mem : sq ∉ st.path := fun hmem => by
      have h := hvis sq hmem; rw [hsq] at h; exact Bool.false_ne_true h
    have hpath1 : (markVisit sq st).path = st.path ++ [sq] := rfl
    have hlen1 : (markVisit sq st).path.length = mc := by
      simp [hpath1, hmc]
    have hnd1 : (markVisit sq st).path.Nodup := by
      rw [hpath1, List.nodup_append_comm]
      exact List.nodup_cons.mpr ⟨hsq_not_mem, hnd⟩
    have hvis1 : ∀ c ∈ (markVisit sq st).path, (markVisit sq st).visited c = true := by
      intro c hc
      rw [hpath1, List.mem_append] at hc
      show (if c = sq then true else st.visited c) = true
      rcases hc with hc | hc
      · by_cases hcsq : c = sq
        · simp [hcsq]
        · simp only [hcsq, if_false]; exact hvis c hc
      · simp only [List.mem_singleton] at hc; simp [hc]
    have hbpath1 : ∀ c ∈ (markVisit sq st).path, inBounds c = true := by
      intro c hc
      rw [hpath1, List.mem_append] at hc
      rcases hc with hc | hc
      · exact hbpath c hc
      · simp only [List.mem_singleton] at hc; rw [hc]; exact hb
    have hchain1 : (markVisit sq st).path.Chain' knightStep := by
      rw [hpath1, List.chain'_append]
      refine ⟨hchain, List.chain'_singleton _, ?_⟩
      intro a ha y hy
      simp only [List.head?_cons, Option.mem_def, Option.some.injEq] at hy
      subst hy
      exact hlast a ha
    have hlast1 : (markVisit sq st).path.getLast? = some sq := by
      rw [hpath1]
      simp
    by_cases hmc25 : mc = rows.toNat * cols.toNat
    · have hdfs : dfs (fuel+1) sq mc st = (true, markVisit sq st) := by
        simp [dfs, hmc25]
      rw [hdfs]
      refine ⟨fun _ => ⟨⟨[], by simp [hpath1]⟩, ?_, hnd1, hbpath1, hchain1⟩,
        fun hf => by simp at hf⟩
      rw [hlen1, hmc25, total_squares_eq]
    · have hspec := @tryMoves_spec (fun m st2 => dfs fuel m (mc+1) st2)
        (fun st2 => (∃ rest, st2.path = st.path ++ sq :: rest) ∧
          st2.path.length = 25 ∧ st2.path.Nodup ∧
          (∀ c ∈ st2.path, inBounds c = true) ∧ st2.path.Chain' knightStep)
        (get_valid_moves (markVisit sq st).visited sq) (markVisit sq st)
        (by
          intro m hm htrue
          obtain ⟨hmb, hmv, hms⟩ := mem_get_valid_moves hm
          have ihm := ih m (mc+1) (markVisit sq st)
            (by rw [hlen1]) hnd1 hvis1 hbpath1 hchain1
            (by intro a ha; rw [hlast1] at ha; cases ha; exact hms)
            hmv hmb
          obtain ⟨⟨rest, hrest⟩, hl, hn, hbb, hc⟩ := ihm.1 htrue
          refine ⟨⟨m :: rest, ?_⟩, hl, hn, hbb, hc⟩
          rw [hrest, hpath1, List.append_assoc]
          rfl
        )
        (by
          intro m hm hfalse
          obtain ⟨hmb, hmv, hms⟩ := mem_get_valid_moves hm
          have ihm := ih m (mc+1) (markVisit sq st)
            (by rw [hlen1]) hnd1 hvis1 hbpath1 hchain1
            (by intro a ha; rw [hlast1] at ha; cases ha; exact hms)
            hmv hmb
          exact ihm.2 hfalse
        )
      rcases htm : tryMoves (fun m st2 => dfs fuel m (mc+1) st2)
          (get_valid_moves (markVisit sq st).visited sq) (markVisit sq st)
        with ⟨b, st2⟩
      rw [htm] at hspec
      cases b
      · have hst2 : st2 = markVisit sq st := hspec.2 rfl
        have hdfs : dfs (fuel+1) sq mc st = (false, unmarkPop sq st2) := by
          simp [dfs, hmc25, htm]
        rw [hdfs]
        refine ⟨fun h => by simp at h, fun _ => ?_⟩
        rw [hst2]
        exact unmarkPop_markVisit sq st hsq
      · have hdfs : dfs (fuel+1) sq mc st = (true, st2) := by
          simp [dfs, hmc25, htm]
        rw [hdfs]
        exact ⟨fun _ => hspec.1 rfl, fun hf => by simp at hf⟩

/-- Unfolding of the on-board test. -/
theorem inBounds_iff {c : Cell} :
    inBounds c = true ↔ (0 ≤ c.1 ∧ c.1 < 5 ∧ 0 ≤ c.2 ∧ c.2 < 5) := by
  simp [inBounds, rows, cols, Bool.and_eq_true, decide_eq_true_eq, and_assoc]

/-- Pigeonhole step: a duplicate-free list of 25 on-board cells contains
every on-board cell. -/
theorem board_cover {p : List Cell} (hlen : p.length = 25) (hnd : p.Nodup)
    (hb : ∀ c ∈ p, inBounds c = true) :
    ∀ c : Cell, inBounds c = true → c ∈ p := by
  intro c hc
  classical
  have hsub : p.toFinset ⊆ (Finset.Icc (0:ℤ) 4) ×ˢ (Finset.Icc (0:ℤ) 4) := by
    intro x hx
    rw [List.mem_toFinset] at hx
    have hxb := inBounds_iff.mp (hb x hx)
    simp only [Finset.mem_product, Finset.mem_Icc]
    omega
  have hcardb : ((Finset.Icc (0:ℤ) 4) ×ˢ (Finset.Icc (0:ℤ) 4)).card = 25 := by
    rw [Finset.card_product]
    simp [Int.card_Icc]
  have hcardp : p.toFinset.card = 25 := by
    rw [List.toFinset_card_of_nodup hnd, hlen]
  have heq : p.toFinset = (Finset.Icc (0:ℤ) 4) ×ˢ (Finset.Icc (0:ℤ) 4) :=
    Finset.eq_of_subset_of_card_le hsub (by omega)
  have hcb : c ∈ (Finset.Icc (0:ℤ) 4) ×ˢ (Finset.Icc (0:ℤ) 4) := by
    have := inBounds_iff.mp hc
    simp only [Finset.mem_product, Finset.mem_Icc]
    omega
  rw [← heq] at hcb
  exact List.mem_toFinset.mp hcb

/-- The solver's outcomes from a fresh state, for any on-board start:
either infeasibility, or a full tour — 25 distinct on-board cells starting
at the start square, chained by knight moves, covering the whole board. -/
theorem solver_spec_aux (start : Cell) (h : inBounds start = true) :
    compute_knights_tour start = SolveOutcome.infeasible ∨
    ∃ p, compute_knights_tour start = SolveOutcome.found p ∧
      p.length = 25 ∧ p.Nodup ∧ p.head? = some start ∧
      (∀ c ∈ p, inBounds c = true) ∧ p.Chain' knightStep ∧
      (∀ c : Cell, inBounds c = true → c ∈ p) := by
  have hspec := dfs_spec (rows.toNat * cols.toNat) start 1 initState
    rfl List.nodup_nil (by intro c hc; cases hc) (by intro c hc; cases hc)
    List.chain'_nil (by intro a ha; cases ha) rfl h
  unfold compute_knights_tour
  rw [if_pos h]
  rcases hr : dfs (rows.toNat * cols.toNat) start 1 initState with ⟨b, st⟩
  rw [hr] at hspec
  cases b
  · left; rfl
  · right
    obtain ⟨⟨rest, hrest⟩, hl, hn, hbb, hch⟩ := hspec.1 rfl
    have hrest2 : st.path = start :: rest := by simpa [initState] using hrest
    refine ⟨st.path, rfl, hl, hn, ?_, hbb, hch, board_cover hl hn hbb⟩
    rw [hrest2]
    rfl

/-- The move loop is extensional in the recursive search it drives. -/
theorem tryMoves_congr {rec1 rec2 : Cell → KTState → Bool × KTState}
    (h : ∀ m st, rec1 m st = rec2 m st) (ms : List Cell) :
    ∀ st, tryMoves rec1 ms st = tryMoves rec2 ms st := by
  induction ms with
  | nil => intro st; rfl
  | cons m ms ih =>
    intro st
    simp only [tryMoves, ← h m st]
    rcases rec1 m st with ⟨b, st1⟩
    cases b
    · exact ih st1
    · rfl

/-- The two DFS implementations compute the same function: the extra
empty-move-list test of `compute_solution` merely short-circuits the empty
loop followed by the identical backtracking actions. -/
theorem tour_dfs_eq_dfs : ∀ (fuel : Nat) (sq : Cell) (mc : Nat) (st : KTState),
    tour_dfs fuel sq mc st = dfs fuel sq mc st := by
  intro fuel
  induction fuel with
  | zero => intro sq mc st; rfl
  | succ fuel ih =>
    intro sq mc st
    rw [tour_dfs, dfs]
    by_cases hmc : mc = rows.toNat * cols.toNat
    · simp [hmc]
    · simp only [hmc, if_false]
      rw [tour_gvm_eq]
      have hcongr := tryMoves_congr (fun m st2 => ih m (mc+1) st2)
        (get_valid_moves (markVisit sq st).visited sq) (markVisit sq st)
      cases hpos : get_valid_moves (markVisit sq st).visited sq with
      | nil => simp [tryMoves]
      | cons a as =>
        rw [hpos] at hcongr
        simp only [List.cons_ne_nil, if_false, hcongr]

/-- Every knight offset is a key of the `moves` dictionary. -/
theorem assocFind_of_mem_orig_moves {d : Cell} (h : d ∈ orig_moves) :
    ∃ v, assocFind d moves_assoc = some v := by
  simp only [orig_moves, List.mem_cons, List.not_mem_nil, or_false] at h
  rcases h with h | h | h | h | h | h | h | h <;> subst h <;> exact ⟨_, rfl⟩

/-- On a path chained by knight moves, `convert_to_hex_path` translates
every consecutive pair, producing one entry fewer than the path length. -/
theorem convert_length {p : List Cell} (h : p.Chain' knightStep) :
    (convert_to_hex_path p).length = p.length - 1 := by
  induction p with
  | nil => rfl
  | cons a p ih =>
    cases p with
    | nil => rfl
    | cons b rest =>
      rw [List.chain'_cons] at h
      obtain ⟨hab, hrest⟩ := h
      obtain ⟨v, hv⟩ := assocFind_of_mem_orig_moves hab
      rw [convert_to_hex_path, hv]
      have ihh := ih hrest
      simp only [List.length_cons] at ihh ⊢
      omega

/-! Claim theorems. -/

/-- C1: oracle-based verification is a pure equality check — for every
transcript from which a start position and a (necessarily non-empty)
coordinate sequence are extracted, whenever the solver finds a tour from
that start, `validate_solution` returns `"success"` exactly when the
extracted sequence equals the computed path with its first element (the
start cell) removed, and `"error"` exactly when they differ in any
position or in length. -/
theorem validate_solution_is_equality_check (lines : List (List Char))
    (start : Cell) (coords : List Cell)
    (hex : extract_data_from_log lines = Except.ok (start, coords)) :
    OracleAgrees lines coords (compute_knights_tour start) := by
  unfold OracleAgrees
  cases hs : compute_knights_tour start with
  | found p =>
    simp only [validate_solution, hex, hs]
    by_cases hc : coords = p.drop 1
    · simp [hc]
    · simp [hc]
  | infeasible => trivial
  | crash => trivial

set_option maxRecDepth 8000 in
/-- Witness for C1 at a concrete transcript carrying start `(0, 0)` and the
single coordinate `(1, 2)`. -/
theorem validate_solution_is_equality_check_witness :
    extract_data_from_log ["KnightsTour starting at coordinate: (0, 0)".data,
        "Coordinate on the board: (1, 2)".data] =
      Except.ok (((0 : Int), (0 : Int)), [((1 : Int), (2 : Int))]) ∧
    OracleAgrees ["KnightsTour starting at coordinate: (0, 0)".data,
        "Coordinate on the board: (1, 2)".data] [((1 : Int), (2 : Int))]
      (compute_knights_tour ((0 : Int), (0 : Int))) :=
  ⟨by decide, validate_solution_is_equality_check _ _ _ (by decide)⟩

/-- C2: for the 5x5 grid and every one of the 25 start cells, the oracle
solver run on fresh search state either returns a path of length exactly
25 that begins at the start cell and contains every grid cell exactly once
(no duplicates, all cells covered), or reports infeasibility — never
success with a partial path. -/
theorem solver_full_tour_or_infeasible (start : Cell) (h : inBounds start = true) :
    compute_knights_tour start = SolveOutcome.infeasible ∨
    ∃ p, compute_knights_tour start = SolveOutcome.found p ∧
      p.length = 25 ∧ p.Nodup ∧ p.head? = some start ∧
      (∀ c ∈ p, inBounds c = true) ∧
      (∀ c : Cell, inBounds c = true → c ∈ p) := by
  rcases solver_spec_aux start h with h1 | ⟨p, h1, h2, h3, h4, h5, _, h7⟩
  · exact Or.inl h1
  · exact Or.inr ⟨p, h1, h2, h3, h4, h5, h7⟩

/-- Witness for C2 at the start cell `(0, 0)`. -/
theorem solver_full_tour_or_infeasible_witness :
    inBounds ((0 : Int), (0 : Int)) = true ∧
    (compute_knights_tour ((0 : Int), (0 : Int)) = SolveOutcome.infeasible ∨
     ∃ p, compute_knights_tour ((0 : Int), (0 : Int)) = SolveOutcome.found p ∧
       p.length = 25 ∧ p.Nodup ∧ p.head? = some ((0 : Int), (0 : Int)) ∧
       (∀ c ∈ p, inBounds c = true) ∧
       (∀ c : Cell, inBounds c = true → c ∈ p)) :=
  ⟨by decide, solver_full_tour_or_infeasible ((0 : Int), (0 : Int)) (by decide)⟩

/-- C3 counterexample: at the claimed threshold itself, TestId 15, the
classifier trusts the pass marker instead of deferring to oracle
verification — `check_transcript 15` classifies a marker-only transcript
as `"success"` while `validate_solution` returns `"unknown"` on it. -/
theorem classifier_trusts_pass_marker_at_threshold_15 :
    check_transcript 15 ["YAHOO!! All tests passed.".data] = Except.ok "success" ∧
    validate_solution ["YAHOO!! All tests passed.".data] = Except.ok "unknown" ∧
    (Except.ok "success" : Except Unit String) ≠ Except.ok "unknown" :=
  ⟨by decide, by decide, by decide⟩

/-- C3 amended: for every transcript of a test numbered strictly above 15
that does not contain the failure marker, the classifier returns exactly
the result of oracle-based verification; the marker-based branch covers
tests numbered up to and including 15, so the oracle deferral starts at
TestId 16, not at the start of the logic category. -/
theorem check_transcript_defers_to_oracle_above_15 (n : Nat)
    (lines : List (List Char)) (h16 : 16 ≤ n)
    (herr : containsSub failMarker (contentOf lines) = false) :
    check_transcript n lines = validate_solution lines := by
  unfold check_transcript
  rw [herr]
  have hn : ¬ (n ≤ 15) := by omega
  simp [hn]

/-- Witness for the amended C3 at TestId 16 and a marker-free transcript. -/
theorem check_transcript_defers_to_oracle_above_15_witness :
    16 ≤ 16 ∧
    containsSub failMarker (contentOf ["nothing to see".data]) = false ∧
    check_transcript 16 ["nothing to see".data] =
      validate_solution ["nothing to see".data] :=
  ⟨by decide, by decide,
    check_transcript_defers_to_oracle_above_15 16 _ (by decide) (by decide)⟩

/-- C4 counterexample: in a batch of 20 job outcomes where job 7 raised the
`SystemExit` that `compile_files` produces on a compiler error, the
result-collection loop of `run_parallel_tests` does not swallow the fault —
it aborts with exit code 1 instead of completing, because `except
Exception` does not catch `SystemExit`; so the fatal condition does
terminate the run, contrary to the claim. -/
theorem scheduler_run_aborted_by_compile_sysexit :
    collect_results ((List.replicate 6 (Except.ok ()) ++ [Except.error (Fault.sysExit 1)]
      ++ List.replicate 13 (Except.ok ())) : List JobOutcome) = some 1 ∧
    ((List.replicate 6 (Except.ok ()) ++ [Except.error (Fault.sysExit 1)]
      ++ List.replicate 13 (Except.ok ())) : List JobOutcome).length = 20 ∧
    (some 1 : Option Nat) ≠ none :=
  ⟨by decide, by decide, by decide⟩

/-- C4 amended: the collection loop contains ordinary per-job exceptions —
a batch whose every outcome is a normal return or an `Exception`-class
fault is drained to completion with nothing propagating out of the
scheduler; only the `SystemExit` raised by a fatal compile escapes it. -/
theorem scheduler_contains_nonfatal_job_faults (outcomes : List JobOutcome)
    (h : ∀ o ∈ outcomes, o = Except.ok () ∨ o = Except.error Fault.exc) :
    collect_results outcomes = none := by
  induction outcomes with
  | nil => rfl
  | cons o rest ih =>
    rcases h o (List.mem_cons_self o rest) with ho | ho <;> subst ho <;>
      simpa [collect_results] using ih (fun x hx => h x (List.mem_cons_of_mem _ hx))

/-- Witness for the amended C4 on a two-job batch with one ordinary
exception. -/
theorem scheduler_contains_nonfatal_job_faults_witness :
    (∀ o ∈ ([Except.ok (), Except.error Fault.exc] : List JobOutcome),
      o = Except.ok () ∨ o = Except.error Fault.exc) ∧
    collect_results ([Except.ok (), Except.error Fault.exc] : List JobOutcome) = none :=
  ⟨by decide, scheduler_contains_nonfatal_job_faults _ (by decide)⟩

/-- C5 counterexample: on a transcript containing both the pass marker and
the failure marker, the two eras disagree — the older `check_transcript`
returns `"success"` (pass marker checked first) while the newer one
returns `"error"` (failure marker checked first), so they are not
equivalent and the fail-first precedence holds only in the newer era. -/
theorem classifier_eras_disagree_on_both_markers :
    check_transcript_old ["YAHOO!! All tests passed.".data, "ERROR".data] = "success" ∧
    check_transcript 2 ["YAHOO!! All tests passed.".data, "ERROR".data] =
      Except.ok "error" ∧
    ("success" : String) ≠ "error" :=
  ⟨by decide, by decide, by decide⟩

/-- C5 amended: for every transcript that does not contain both markers at
once, the two eras of the classifier agree on below-threshold test ids;
they differ exactly on both-marker transcripts, where the older era
reports success and the newer era reports error. -/
theorem classifier_eras_agree_without_marker_conflict (n : Nat)
    (lines : List (List Char)) (hn : n ≤ 15)
    (h : ¬(containsSub passMarker (contentOf lines) = true ∧
           containsSub failMarker (contentOf lines) = true)) :
    check_transcript n lines = Except.ok (check_transcript_old lines) := by
  unfold check_transcript check_transcript_old
  cases hp : containsSub passMarker (contentOf lines) with
  | true =>
    have hf : containsSub failMarker (contentOf lines) = false := by
      cases hf : containsSub failMarker (contentOf lines) with
      | true => exact absurd ⟨hp, hf⟩ h
      | false => rfl
    simp [hn, hf, hp]
  | false =>
    cases hf : containsSub failMarker (contentOf lines) with
    | true => simp [hf, hp]
    | false => simp [hn, hf, hp]

/-- Witness for the amended C5 on a marker-free transcript at TestId 2. -/
theorem classifier_eras_agree_without_marker_conflict_witness :
    2 ≤ 15 ∧
    ¬(containsSub passMarker (contentOf ["quiet run".data]) = true ∧
      containsSub failMarker (contentOf ["quiet run".data]) = true) ∧
    check_transcript 2 ["quiet run".data] =
      Except.ok (check_transcript_old ["quiet run".data]) :=
  ⟨by decide, by decide,
    classifier_eras_agree_without_marker_conflict 2 _ (by decide) (by decide)⟩

/-- C6: the oracle solver run on fresh search state is a deterministic pure
function of the start cell — threading the module state through two
successive calls with the same start yields identical outcomes, leaves the
module state unchanged, and the outcome does not depend on the incoming
module state at all (the search state is allocated locally per call). -/
theorem solver_call_deterministic_and_stateless (start : Cell)
    (h : inBounds start = true) (m : ScriptsModuleState) :
    (compute_knights_tour_call m start).1 =
      (compute_knights_tour_call (compute_knights_tour_call m start).2 start).1 ∧
    (compute_knights_tour_call (compute_knights_tour_call m start).2 start).2 = m ∧
    (∀ m2 : ScriptsModuleState,
      (compute_knights_tour_call m2 start).1 = (compute_knights_tour_call m start).1) :=
  ⟨rfl, rfl, fun _ => rfl⟩

/-- Witness for C6 at the start cell `(2, 2)` and the empty wave cache. -/
theorem solver_call_deterministic_and_stateless_witness :
    inBounds ((2 : Int), (2 : Int)) = true ∧
    ((compute_knights_tour_call ⟨[]⟩ ((2 : Int), (2 : Int))).1 =
      (compute_knights_tour_call
        (compute_knights_tour_call ⟨[]⟩ ((2 : Int), (2 : Int))).2
        ((2 : Int), (2 : Int))).1 ∧
     (compute_knights_tour_call
        (compute_knights_tour_call ⟨[]⟩ ((2 : Int), (2 : Int))).2
        ((2 : Int), (2 : Int))).2 = (⟨[]⟩ : ScriptsModuleState) ∧
     (∀ m2 : ScriptsModuleState,
       (compute_knights_tour_call m2 ((2 : Int), (2 : Int))).1 =
         (compute_knights_tour_call ⟨[]⟩ ((2 : Int), (2 : Int))).1)) :=
  ⟨by decide,
    solver_call_deterministic_and_stateless ((2 : Int), (2 : Int)) (by decide) ⟨[]⟩⟩

/-- C7: whenever extraction fails (no start line or no coordinate lines) or
the oracle reports infeasibility from the extracted start,
`validate_solution` returns `"unknown"` normally — the `ValueError`
failures are recovered at the verification boundary instead of
propagating. -/
theorem validate_solution_unknown_on_recoverable_failures
    (lines : List (List Char))
    (h : extract_data_from_log lines = Except.error () ∨
      ∃ start coords, extract_data_from_log lines = Except.ok (start, coords) ∧
        compute_knights_tour start = SolveOutcome.infeasible) :
    validate_solution lines = Except.ok "unknown" := by
  rcases h with h | ⟨s, cs, hex, hin⟩
  · simp only [validate_solution, h]
  · simp only [validate_solution, hex, hin]

/-- Witness for C7 on a transcript with no extractable data. -/
theorem validate_solution_unknown_on_recoverable_failures_witness :
    (extract_data_from_log ["no tour data in this transcript".data] =
        Except.error () ∨
     ∃ start coords,
       extract_data_from_log ["no tour data in this transcript".data] =
         Except.ok (start, coords) ∧
       compute_knights_tour start = SolveOutcome.infeasible) ∧
    validate_solution ["no tour data in this transcript".data] =
      Except.ok "unknown" :=
  ⟨Or.inl (by decide),
    validate_solution_unknown_on_recoverable_failures _ (Or.inl (by decide))⟩

/-- C8 counterexample: the TestIds of the logic category are claimed by two
`(Category, Variant)` pairs at once — `TEST_MAPPING` assigns TestId 20 to
both `("logic", "main")` and `("logic", "extra")`, so the catalog is not a
disjoint partition into `(Category, Variant)` pairs and a TestId alone
does not determine a unique variant. -/
theorem logic_ids_claimed_by_both_variants :
    claiming_pairs 20 = [("logic", some "main"), ("logic", some "extra")] ∧
    (claiming_pairs 20).length ≠ 1 :=
  ⟨by decide, by decide⟩

/-- C8 amended: for each fixed variant, the catalog is a disjoint,
gap-free partition — every TestId below 29 is claimed by exactly one
category of the `main` view and exactly one of the `extra` view, and the
`collect_files.py` catalog likewise claims every TestId in `1..17` exactly
once; but the two variants of the subdivided category share their whole
range, so the variant is selected by the run argument, not by the
TestId. -/
theorem catalog_partitions_per_variant (id : Nat) (h : id < 29) :
    claim_count (variant_ranges "main") id = 1 ∧
    claim_count (variant_ranges "extra") id = 1 ∧
    (1 ≤ id → id < 18 → claim_count test_mapping id = 1) := by
  revert h
  revert id
  decide

/-- Witness for the amended C8 at TestId 16. -/
theorem catalog_partitions_per_variant_witness :
    16 < 29 ∧
    (claim_count (variant_ranges "main") 16 = 1 ∧
     claim_count (variant_ranges "extra") 16 = 1 ∧
     (1 ≤ 16 → 16 < 18 → claim_count test_mapping 16 = 1)) :=
  ⟨by decide, catalog_partitions_per_variant 16 (by decide)⟩

/-- C9 counterexample: running the compile step twice for the same TestId
with unchanged sources invokes the external tool twice, not once —
`compile_files` has no skip-if-stale policy, so recompilation is
unconditional; only the work-library creation (`vlib`) happens on the
first run alone. -/
theorem compile_twice_invokes_tool_twice :
    (compile_files (compile_files ⟨false, 0, 0⟩ false []).2 false []).2.invocations
      = 2 ∧
    (compile_files (compile_files ⟨false, 0, 0⟩ false []).2 false []).2.invocations
      ≠ 1 ∧
    (compile_files (compile_files ⟨false, 0, 0⟩ false []).2 false []).2.vlibRuns
      = 1 :=
  ⟨by decide, by decide, by decide⟩

/-- C9 amended: every `compile_files` call invokes the external compile
tool exactly once, regardless of any prior state — there is no
configuration under which a second run with unchanged sources skips the
tool; the library namespace is created by the first call and only reused
afterwards. -/
theorem compile_files_always_invokes_tool (env : CompileEnv) (t : Bool)
    (log : List Char) :
    (compile_files env t log).2.invocations = env.invocations + 1 ∧
    (compile_files env t log).2.libExists = true ∧
    (compile_files env t log).2.vlibRuns =
      env.vlibRuns + (if env.libExists then 0 else 1) := by
  rcases env with ⟨le, inv, vr⟩
  cases t <;> by_cases h2 : check_compilation log = "error" <;>
    cases le <;> simp [compile_files, h2]

/-- C10: every path produced by a successful `compute_solution` run from
fresh module state is chained by knight offsets, so `convert_to_hex_path`
never reaches its invalid-move fallback and returns exactly one hex value
per move — 24 entries for the full 25-cell tour. -/
theorem solver_path_hex_conversion_total (start : Cell)
    (h : inBounds start = true) :
    HexPathTotal (tour_compute_solution start initState) := by
  unfold HexPathTotal
  have heq : tour_compute_solution start initState =
      dfs (rows.toNat * cols.toNat) start 1 initState :=
    tour_dfs_eq_dfs _ _ _ _
  have hspec := dfs_spec (rows.toNat * cols.toNat) start 1 initState
    rfl List.nodup_nil (by intro c hc; cases hc) (by intro c hc; cases hc)
    List.chain'_nil (by intro a ha; cases ha) rfl h
  rcases hr : tour_compute_solution start initState with ⟨b, st⟩
  rw [heq] at hr
  rw [hr] at hspec
  cases b
  · trivial
  · obtain ⟨_, hl, _, _, hch⟩ := hspec.1 rfl
    have hcl := convert_length hch
    exact ⟨hch, hcl, by rw [hcl, hl]⟩

/-- Witness for C10 at the start cell `(0, 0)`. -/
theorem solver_path_hex_conversion_total_witness :
    inBounds ((0 : Int), (0 : Int)) = true ∧
    HexPathTotal (tour_compute_solution ((0 : Int), (0 : Int)) initState) :=
  ⟨by decide, solver_path_hex_conversion_total ((0 : Int), (0 : Int)) (by decide)⟩
